import Mathlib

/-!
Shallow embedding of the data layer of `src/app.py` (AttendanceManagement,
a Flask + sqlite3 application).

The SQLite database is modelled as lists of rows plus the AUTOINCREMENT
counter of every table.  Each repository operation of `app.py` is translated
into a pure state-passing function over this model.

Modelling decisions traced to the source:

* `UNIQUE` constraints and the unique index `idx_subjects_unique` are enforced
  by SQLite unconditionally; they are modelled as the failure branch of the
  corresponding insert functions (a caught `sqlite3.IntegrityError`).
* The `CHECK(status IN (...))` constraints of `attendance.status` and
  `student_tasks.status` are modelled by the inductive types `AStatus` and
  `TStatus`: the request layer hands the core already-extracted scalar values.
* The `FOREIGN KEY ... ON DELETE CASCADE` clauses declared by `init_db` are
  NOT enforced at runtime: SQLite only honours foreign-key clauses on a
  connection after `PRAGMA foreign_keys = ON`, and `app.py` opens every
  connection with a bare `sqlite3.connect` and never issues that pragma (its
  only pragmas are `PRAGMA table_info`).  `delete_student` therefore removes
  only the `students` row, exactly as its single DELETE statement does, and
  inserts are not checked against parent tables.
* `round(x, 2)` of Python is modelled over `ℚ` by `round2`.
-/

namespace AMS

/-- Attendance status: the column `status TEXT CHECK(status IN ('Present','Absent'))`
of the `attendance` table. -/
inductive AStatus where
  | present
  | absent
  deriving DecidableEq

/-- Task-assignment status: the column `status TEXT CHECK(status IN ('Pending','Completed'))`
of the `student_tasks` table. -/
inductive TStatus where
  | pending
  | completed
  deriving DecidableEq

/-- A row of the `students` table. -/
structure Student where
  id : Nat
  usn : String
  name : String
  email : String
  phone : String
  class_ : String
  department : String
  parent_name : String
  parent_phone : String
  parent_email : String
  deriving DecidableEq

/-- A row of the `attendance` table. -/
structure AttendanceRecord where
  id : Nat
  student_id : Nat
  date : String
  status : AStatus
  deriving DecidableEq

/-- A row of the `tasks` table. -/
structure Task where
  id : Nat
  title : String
  description : String
  due_date : String
  deriving DecidableEq

/-- A row of the `student_tasks` join table. -/
structure StudentTask where
  id : Nat
  task_id : Nat
  student_id : Nat
  status : TStatus
  completed_date : Option String
  deriving DecidableEq

/-- A row of the `subjects` table (after the `migrate_db` migration that adds
`course` and `semester`; via the application's own insert path both are
always populated). -/
structure Subject where
  id : Nat
  name : String
  course : String
  semester : Nat
  description : String
  deriving DecidableEq

/-- A row of the `marks` table.  `marks_obtained` and `max_marks` are kept as
the raw strings the request layer passes through (SQLite stores them with
REAL affinity; no operation under verification reads them back numerically). -/
structure MarkRecord where
  id : Nat
  student_id : Nat
  subject_id : Nat
  exam_type : String
  marks_obtained : String
  max_marks : String
  exam_date : Option String
  remarks : String
  deriving DecidableEq

/-- The whole database file: one list of rows per table, plus each table's
AUTOINCREMENT counter. -/
structure DB where
  students : List Student
  attendance : List AttendanceRecord
  tasks : List Task
  student_tasks : List StudentTask
  subjects : List Subject
  marks : List MarkRecord
  next_student_id : Nat
  next_attendance_id : Nat
  next_task_id : Nat
  next_student_task_id : Nat
  next_subject_id : Nat
  next_mark_id : Nat
  deriving DecidableEq

/-- Outcome of a guarded write operation: `missing` is the required-field
check before any database call, `duplicate` is a rejected uniqueness
violation (caught `IntegrityError` or explicit pre-check), `ok` a committed
write. -/
inductive WriteOutcome where
  | missing
  | duplicate
  | ok
  deriving DecidableEq

/-- The key list `(student_id, date)` of an attendance row list; the schema
declares `UNIQUE(student_id, date)`, i.e. this list has no duplicate. -/
def attendancePairs (att : List AttendanceRecord) : List (Nat × String) :=
  att.map fun r => (r.student_id, r.date)

/-- The key list `(task_id, student_id)` of a `student_tasks` row list; the
schema declares `UNIQUE(task_id, student_id)`. -/
def studentTaskPairs (rows : List StudentTask) : List (Nat × Nat) :=
  rows.map fun r => (r.task_id, r.student_id)

/-- Python's `str.strip()` as used throughout app.py: drop leading and
trailing whitespace. -/
def strip (s : String) : String :=
  ⟨((s.data.dropWhile Char.isWhitespace).reverse.dropWhile Char.isWhitespace).reverse⟩

/-- Does a row for `(sid, d)` exist in the attendance table? -/
def hasAttendance (att : List AttendanceRecord) (sid : Nat) (d : String) : Bool :=
  att.any fun r => r.student_id == sid && r.date == d

/-- `INSERT INTO attendance (student_id, date, status) VALUES (?, ?, ?)`:
fails (an `IntegrityError`, `false`) exactly when `UNIQUE(student_id, date)`
rejects the row. -/
def insertAttendance (db : DB) (sid : Nat) (d : String) (st : AStatus) :
    DB × Bool :=
  if hasAttendance db.attendance sid d then (db, false)
  else
    ({ db with
        attendance := db.attendance ++ [⟨db.next_attendance_id, sid, d, st⟩],
        next_attendance_id := db.next_attendance_id + 1 }, true)

/-- POST branch of the `attendance` route (app.py lines 377-390): mark one
(student, date, status); the caught `IntegrityError` leaves the store
unchanged and is reported to the user as a duplicate. -/
def mark_attendance (db : DB) (sid : Nat) (d : String) (st : AStatus) :
    DB × Bool :=
  insertAttendance db sid d st

/-- The optional class/department filter of `bulk_attendance` (app.py lines
416-428): a condition is added exactly when the submitted value is truthy and
differs from the sentinel `'All'`. -/
def matchesFilter (cf df : Option String) (s : Student) : Bool :=
  (match cf with
   | none => true
   | some c => c == "" || c == "All" || s.class_ == c) &&
  (match df with
   | none => true
   | some dpt => dpt == "" || dpt == "All" || s.department == dpt)

/-- `SELECT id FROM students [WHERE ...]` of `bulk_attendance` (app.py line
429): the resolved matching student set. -/
def resolvedStudentIds (db : DB) (cf df : Option String) : List Nat :=
  (db.students.filter (matchesFilter cf df)).map (·.id)

/-- The per-student insert loop of `bulk_attendance` (app.py lines 431-442):
one insert attempt per resolved student, the status taken from the form field
`status_<sid>` with default `'Present'`; a caught `IntegrityError` is tallied
as `exists_count` instead of aborting the batch. -/
def bulkAttendanceLoop (d : String) (statusOf : Nat → Option AStatus) :
    DB → List Nat → DB × Nat × Nat
  | db, [] => (db, 0, 0)
  | db, sid :: rest =>
    let st := (statusOf sid).getD AStatus.present
    let step := insertAttendance db sid d st
    let r := bulkAttendanceLoop d statusOf step.1 rest
    if step.2 then (r.1, r.2.1 + 1, r.2.2) else (r.1, r.2.1, r.2.2 + 1)

/-- POST branch of `bulk_attendance` (app.py lines 414-445); returns the new
store and the reported `(success_count, exists_count)`. -/
def bulk_attendance (db : DB) (d : String) (cf df : Option String)
    (statusOf : Nat → Option AStatus) : DB × Nat × Nat :=
  bulkAttendanceLoop d statusOf db (resolvedStudentIds db cf df)

/-- `add_student` (app.py lines 292-323).  The duplicate outcome is the
caught `IntegrityError` of `UNIQUE` on `usn` or on `email`. -/
def add_student (db : DB)
    (usn name email phone class_ department parent_name parent_phone
      parent_email : String) : DB × WriteOutcome :=
  let usn := (strip usn)
  let name := (strip name)
  let email := (strip email)
  let phone := (strip phone)
  let class_ := (strip class_)
  let department := (strip department)
  let parent_name := (strip parent_name)
  let parent_phone := (strip parent_phone)
  let parent_email := (strip parent_email)
  if usn == "" || name == "" || email == "" || class_ == "" || department == ""
  then (db, .missing)
  else if db.students.any fun s => s.usn == usn || s.email == email then
    (db, .duplicate)
  else
    ({ db with
        students := db.students ++
          [⟨db.next_student_id, usn, name, email, phone, class_, department,
            parent_name, parent_phone, parent_email⟩],
        next_student_id := db.next_student_id + 1 }, .ok)

/-- `edit_student` (app.py lines 325-358): explicit pre-check
`SELECT id FROM students WHERE (usn = ? OR email = ?) AND id != ?`, then an
unguarded UPDATE of every column of the row `id`. -/
def edit_student (db : DB) (id : Nat)
    (usn name email phone class_ department parent_name parent_phone
      parent_email : String) : DB × WriteOutcome :=
  let usn := (strip usn)
  let name := (strip name)
  let email := (strip email)
  let phone := (strip phone)
  let class_ := (strip class_)
  let department := (strip department)
  let parent_name := (strip parent_name)
  let parent_phone := (strip parent_phone)
  let parent_email := (strip parent_email)
  if usn == "" || name == "" || email == "" || class_ == "" || department == ""
  then (db, .missing)
  else if db.students.any fun s => (s.usn == usn || s.email == email) && s.id != id
  then (db, .duplicate)
  else
    ({ db with
        students := db.students.map fun s =>
          if s.id == id then
            ⟨s.id, usn, name, email, phone, class_, department,
              parent_name, parent_phone, parent_email⟩
          else s }, .ok)

/-- `delete_student` (app.py lines 360-367): the single statement
`DELETE FROM students WHERE id = ?`.  Because `app.py` never issues
`PRAGMA foreign_keys = ON`, the `ON DELETE CASCADE` clauses of the schema are
not enforced by SQLite, and no child row of `attendance`, `student_tasks` or
`marks` is removed. -/
def delete_student (db : DB) (id : Nat) : DB :=
  { db with students := db.students.filter fun s => !(s.id == id) }

/-- Is student `sid` assigned to task `tid`? -/
def isAssigned (db : DB) (tid sid : Nat) : Bool :=
  db.student_tasks.any fun r => r.task_id == tid && r.student_id == sid

/-- `INSERT INTO student_tasks (task_id, student_id, status) VALUES (?, ?, 'Pending')`:
fails (`false`) exactly when `UNIQUE(task_id, student_id)` rejects the row. -/
def insertStudentTask (db : DB) (tid sid : Nat) : DB × Bool :=
  if isAssigned db tid sid then (db, false)
  else
    ({ db with
        student_tasks := db.student_tasks ++
          [⟨db.next_student_task_id, tid, sid, TStatus.pending, none⟩],
        next_student_task_id := db.next_student_task_id + 1 }, true)

/-- `SELECT student_id FROM student_tasks WHERE task_id = ?` (app.py lines
597-600). -/
def currentlyAssignedIds (db : DB) (tid : Nat) : List Nat :=
  (db.student_tasks.filter fun r => r.task_id == tid).map (·.student_id)

/-- The assignment loop of `update_task_assignments` (app.py lines 609-618):
one insert per student of `to_assign`, counting successes, a caught
`IntegrityError` skipped. -/
def assignLoop (tid : Nat) : DB → List Nat → DB × Nat
  | db, [] => (db, 0)
  | db, sid :: rest =>
    let step := insertStudentTask db tid sid
    let r := assignLoop tid step.1 rest
    if step.2 then (r.1, r.2 + 1) else (r.1, r.2)

/-- The unassignment loop of `update_task_assignments` (app.py lines 621-627):
`DELETE FROM student_tasks WHERE task_id = ? AND student_id = ?` per student
of `to_unassign`, counting unconditionally. -/
def unassignLoop (tid : Nat) : DB → List Nat → DB × Nat
  | db, [] => (db, 0)
  | db, sid :: rest =>
    let db1 := { db with
      student_tasks := db.student_tasks.filter fun r =>
        !(r.task_id == tid && r.student_id == sid) }
    let r := unassignLoop tid db1 rest
    (r.1, r.2 + 1)

/-- `update_task_assignments` (app.py lines 582-638): reconcile the join rows
of task `tid` against the complete desired list `selected`; returns the new
store and the reported `(assign_count, unassign_count)`. -/
def update_task_assignments (db : DB) (tid : Nat) (selected : List Nat) :
    DB × Nat × Nat :=
  let cur := currentlyAssignedIds db tid
  let to_assign := selected.filter fun sid => !(cur.contains sid)
  let to_unassign := cur.filter fun sid => !(selected.contains sid)
  let r1 := assignLoop tid db to_assign
  let r2 := unassignLoop tid r1.1 to_unassign
  (r2.1, r1.2, r2.2)

/-- Does a subject with key `(name, course, semester)` exist?  This is the
unique index `idx_subjects_unique` created by `migrate_db`. -/
def subjectTripleExists (subs : List Subject) (name course : String)
    (semester : Nat) : Bool :=
  subs.any fun s => s.name == name && s.course == course && s.semester == semester

/-- POST branch of the `subjects` route (app.py lines 711-730): the duplicate
outcome is the caught `IntegrityError` of `idx_subjects_unique`. -/
def add_subject (db : DB) (name course : String) (semester : Nat)
    (description : String) : DB × WriteOutcome :=
  let name := (strip name)
  let course := (strip course)
  let description := (strip description)
  if name == "" || course == "" then (db, .missing)
  else if subjectTripleExists db.subjects name course semester then
    (db, .duplicate)
  else
    ({ db with
        subjects := db.subjects ++
          [⟨db.next_subject_id, name, course, semester, description⟩],
        next_subject_id := db.next_subject_id + 1 }, .ok)

/-- `edit_subject` (app.py lines 761-788): explicit pre-check
`SELECT id FROM subjects WHERE name = ? AND course = ? AND semester = ? AND id != ?`,
then an unguarded UPDATE of the row `id`. -/
def edit_subject (db : DB) (id : Nat) (name course : String) (semester : Nat)
    (description : String) : DB × WriteOutcome :=
  let name := (strip name)
  let course := (strip course)
  let description := (strip description)
  if name == "" || course == "" then (db, .missing)
  else if db.subjects.any fun s =>
      s.name == name && s.course == course && s.semester == semester && s.id != id
  then (db, .duplicate)
  else
    ({ db with
        subjects := db.subjects.map fun s =>
          if s.id == id then ⟨s.id, name, course, semester, description⟩
          else s }, .ok)

/-- The per-position insert loop of `bulk_marks` (app.py lines 868-883):
position `i` reads `marks_obtained_list[i]` and `max_marks_list[i]` when in
range and `''` otherwise, skips the position when either is empty, and
otherwise inserts (the `marks` table has no uniqueness constraint, so the
insert always succeeds). -/
def bulkMarksLoop (subj : Nat) (et : String) (ed : Option String)
    (rem : String) : DB → List Nat → List String → List String → DB × Nat
  | db, [], _, _ => (db, 0)
  | db, sid :: rest, mol, mml =>
    let mo := mol.headD ""
    let mm := mml.headD ""
    if mo == "" || mm == "" then
      bulkMarksLoop subj et ed rem db rest mol.tail mml.tail
    else
      let db1 := { db with
        marks := db.marks ++ [⟨db.next_mark_id, sid, subj, et, mo, mm, ed, rem⟩],
        next_mark_id := db.next_mark_id + 1 }
      let r := bulkMarksLoop subj et ed rem db1 rest mol.tail mml.tail
      (r.1, r.2 + 1)

/-- POST branch of `bulk_marks` (app.py lines 855-886): parallel sequences of
student ids, marks_obtained and max_marks; returns the new store and the
reported `success_count`. -/
def bulk_marks (db : DB) (subj : Nat) (exam_type : String)
    (exam_date : Option String) (remarks : String) (student_ids : List Nat)
    (mol mml : List String) : DB × Nat :=
  let et := (strip exam_type)
  let rem := (strip remarks)
  if et == "" then (db, 0)
  else bulkMarksLoop subj et exam_date rem db student_ids mol mml

/-- Round a rational to 2 decimal places: `round(x, 2)` in app.py. -/
def round2 (q : ℚ) : ℚ := (round (q * 100) : ℤ) / 100

/-- The attendance aggregate of `student_report` (app.py lines 966-977). -/
structure AttendanceSummary where
  total_days : Nat
  present_count : Nat
  absent_count : Nat
  percent : ℚ
  deriving DecidableEq

/-- `student_report` (app.py lines 957-977), attendance part: `none` models
the "Student not found" redirect; otherwise total/present/absent counts over
the student's attendance rows and
`round((present / total_days * 100), 2) if total_days > 0 else 0`. -/
def student_report (db : DB) (sid : Nat) : Option AttendanceSummary :=
  if db.students.any fun s => s.id == sid then
    let total := (db.attendance.filter fun r => r.student_id == sid).length
    let present := db.attendance.countP fun r =>
      r.student_id == sid && r.status == AStatus.present
    let absent := db.attendance.countP fun r =>
      r.student_id == sid && r.status == AStatus.absent
    some ⟨total, present, absent,
      if total > 0 then round2 ((present : ℚ) / (total : ℚ) * 100) else 0⟩
  else none

/-- The per-student marks listing of `student_report` (app.py lines 979-987):
an inner join of `marks` with `subjects`, scoped to one student. -/
def studentMarksList (db : DB) (sid : Nat) : List MarkRecord :=
  db.marks.filter fun m =>
    m.student_id == sid && db.subjects.any fun sub => sub.id == m.subject_id

/-- The per-student task listing of `student_report` (app.py lines 989-995):
an inner join of `student_tasks` with `tasks`, scoped to one student. -/
def studentTaskList (db : DB) (sid : Nat) : List StudentTask :=
  db.student_tasks.filter fun r =>
    r.student_id == sid && db.tasks.any fun t => t.id == r.task_id

/-! ### Helper lemmas -/

lemma countP_not_add {α : Type} (p : α → Bool) :
    ∀ l : List α, l.countP (fun a => !(p a)) + l.countP p = l.length := by
  intro l
  induction l with
  | nil => simp
  | cons a l ih => by_cases hp : p a <;> simp [List.countP_cons, hp, ← ih] <;> omega

lemma hasAttendance_append (att : List AttendanceRecord) (row : AttendanceRecord)
    (sid : Nat) (d : String) :
    hasAttendance (att ++ [row]) sid d
      = (hasAttendance att sid d || (row.student_id == sid && row.date == d)) := by
  simp [hasAttendance]

lemma hasAttendance_iff_pair_mem (att : List AttendanceRecord) (sid : Nat)
    (d : String) :
    hasAttendance att sid d = true ↔ (sid, d) ∈ attendancePairs att := by
  simp only [hasAttendance, attendancePairs, List.any_eq_true, List.mem_map,
    Bool.and_eq_true, beq_iff_eq]
  constructor
  · rintro ⟨r, hr, h1, h2⟩
    exact ⟨r, hr, by simp [h1, h2]⟩
  · rintro ⟨r, hr, h⟩
    obtain ⟨h1, h2⟩ := Prod.mk.injEq .. ▸ h
    exact ⟨r, hr, h1, h2⟩

lemma bulkAttendanceLoop_spec (d : String) (f : Nat → Option AStatus)
    (sids : List Nat) :
    ∀ db : DB, sids.Nodup →
      (bulkAttendanceLoop d f db sids).2.1
          = sids.countP (fun sid => !(hasAttendance db.attendance sid d)) ∧
      (bulkAttendanceLoop d f db sids).2.2
          = sids.countP (fun sid => hasAttendance db.attendance sid d) ∧
      ((bulkAttendanceLoop d f db sids).1.attendance.countP fun r => r.date == d)
          = (db.attendance.countP fun r => r.date == d)
            + (bulkAttendanceLoop d f db sids).2.1 ∧
      ((attendancePairs db.attendance).Nodup →
        (attendancePairs (bulkAttendanceLoop d f db sids).1.attendance).Nodup) := by
  induction sids with
  | nil => intro db _; simp [bulkAttendanceLoop]
  | cons sid rest ih =>
    intro db h
    rw [List.nodup_cons] at h
    by_cases hrec : hasAttendance db.attendance sid d
    · have hstep : insertAttendance db sid d ((f sid).getD AStatus.present)
          = (db, false) := by
        simp [insertAttendance, hrec]
      obtain ⟨ih1, ih2, ih3, ih4⟩ := ih db h.2
      simp only [bulkAttendanceLoop, hstep, Bool.false_eq_true, if_false]
      refine ⟨?_, ?_, ?_, ih4⟩
      · rw [ih1, List.countP_cons]
        simp [hrec]
      · rw [ih2, List.countP_cons]
        simp [hrec]
      · exact ih3
    · set row : AttendanceRecord :=
        ⟨db.next_attendance_id, sid, d, (f sid).getD AStatus.present⟩ with hrow
      set db1 : DB :=
        { db with attendance := db.attendance ++ [row],
                  next_attendance_id := db.next_attendance_id + 1 } with hdb1
      have hstep : insertAttendance db sid d ((f sid).getD AStatus.present)
          = (db1, true) := by
        simp [insertAttendance, hrec, hdb1, hrow]
      have htrans : ∀ x ∈ rest,
          hasAttendance db1.attendance x d = hasAttendance db.attendance x d := by
        intro x hx
        have hne : (sid == x) = false := by
          simp only [beq_eq_false_iff_ne, ne_eq]
          rintro rfl; exact h.1 hx
        simp [hdb1, hasAttendance_append, hrow, hne]
      obtain ⟨ih1, ih2, ih3, ih4⟩ := ih db1 h.2
      have hrec' : hasAttendance db.attendance sid d = false := by
        simpa using hrec
      simp only [bulkAttendanceLoop, hstep, eq_self_iff_true, if_true]
      refine ⟨?_, ?_, ?_, ?_⟩
      · have e : List.countP (fun s => !hasAttendance db1.attendance s d) rest
            = List.countP (fun s => !hasAttendance db.attendance s d) rest :=
          List.countP_congr fun x hx => by rw [htrans x hx]
        rw [ih1, e, List.countP_cons]
        simp [hrec']
      · have e : List.countP (fun s => hasAttendance db1.attendance s d) rest
            = List.countP (fun s => hasAttendance db.attendance s d) rest :=
          List.countP_congr fun x hx => by rw [htrans x hx]
        rw [ih2, e, List.countP_cons]
        simp [hrec']
      · have hd1 : (db1.attendance.countP fun r => r.date == d)
            = (db.attendance.countP fun r => r.date == d) + 1 := by
          simp [hdb1, List.countP_append, hrow]
        rw [ih3, hd1]
        omega
      · intro hnd
        apply ih4
        have hpair : (sid, d) ∉ attendancePairs db.attendance := by
          rw [← hasAttendance_iff_pair_mem]
          simp [hrec']
        have hps : attendancePairs db1.attendance
            = attendancePairs db.attendance ++ [(sid, d)] := by
          simp [hdb1, attendancePairs, hrow]
        rw [hps, List.nodup_append]
        refine ⟨hnd, List.nodup_singleton _, ?_⟩
        intro a ha ha2
        rw [List.mem_singleton] at ha2
        exact hpair (ha2 ▸ ha)

/-! ### C5 — single attendance marking has no upsert semantics -/

/-- C5: for every (student, date) pair, marking attendance succeeds when no
record for the pair exists, and a second mark for the same pair fails as a
duplicate, leaves the store untouched, and exactly one record for the pair
(carrying the first mark's status) exists afterwards. -/
theorem mark_attendance_no_upsert (db : DB) (sid : Nat) (d : String)
    (st1 st2 : AStatus) (h : hasAttendance db.attendance sid d = false) :
    (mark_attendance db sid d st1).2 = true ∧
    (mark_attendance (mark_attendance db sid d st1).1 sid d st2).2 = false ∧
    (mark_attendance (mark_attendance db sid d st1).1 sid d st2).1
      = (mark_attendance db sid d st1).1 ∧
    ((mark_attendance db sid d st1).1.attendance.countP fun r =>
      r.student_id == sid && r.date == d) = 1 ∧
    (∃ r ∈ (mark_attendance db sid d st1).1.attendance,
      r.student_id = sid ∧ r.date = d ∧ r.status = st1) := by
  have hall : ∀ r ∈ db.attendance, ¬(r.student_id == sid && r.date == d) = true :=
    List.any_eq_false.mp (by simpa [hasAttendance] using h)
  have hzero : (db.attendance.countP fun r => r.student_id == sid && r.date == d)
      = 0 := by
    rw [List.countP_eq_zero]
    exact hall
  have h1 : mark_attendance db sid d st1
      = ({ db with
            attendance := db.attendance ++ [⟨db.next_attendance_id, sid, d, st1⟩],
            next_attendance_id := db.next_attendance_id + 1 }, true) := by
    simp [mark_attendance, insertAttendance, h]
  have h2 : hasAttendance (mark_attendance db sid d st1).1.attendance sid d = true := by
    rw [h1]
    simp [hasAttendance_append]
  refine ⟨by rw [h1], ?_, ?_, ?_, ?_⟩
  · rw [h1]
    simp [mark_attendance, insertAttendance, hasAttendance_append]
  · rw [h1]
    simp [mark_attendance, insertAttendance, hasAttendance_append]
  · rw [h1]
    simp [List.countP_append, hzero]
  · rw [h1]
    refine ⟨⟨db.next_attendance_id, sid, d, st1⟩, ?_, rfl, rfl, rfl⟩
    simp

/-- An empty database file right after `init_db`. -/
def dbEmpty : DB := ⟨[], [], [], [], [], [], 1, 1, 1, 1, 1, 1⟩

/-- Witness for C5 at a concrete input. -/
theorem mark_attendance_no_upsert_witness :
    hasAttendance dbEmpty.attendance 1 "2024-01-01" = false ∧
    ((mark_attendance dbEmpty 1 "2024-01-01" AStatus.present).2 = true ∧
     (mark_attendance (mark_attendance dbEmpty 1 "2024-01-01" AStatus.present).1
        1 "2024-01-01" AStatus.absent).2 = false ∧
     (mark_attendance (mark_attendance dbEmpty 1 "2024-01-01" AStatus.present).1
        1 "2024-01-01" AStatus.absent).1
       = (mark_attendance dbEmpty 1 "2024-01-01" AStatus.present).1 ∧
     ((mark_attendance dbEmpty 1 "2024-01-01" AStatus.present).1.attendance.countP
        fun r => r.student_id == 1 && r.date == "2024-01-01") = 1 ∧
     (∃ r ∈ (mark_attendance dbEmpty 1 "2024-01-01" AStatus.present).1.attendance,
        r.student_id = 1 ∧ r.date = "2024-01-01" ∧ r.status = AStatus.present)) :=
  ⟨by decide,
   mark_attendance_no_upsert dbEmpty 1 "2024-01-01" AStatus.present AStatus.absent
     (by decide)⟩

/-! ### C2 — bulk attendance marking -/

/-- C2 (amended): for every date and resolved matching set of N students of
which K already have a record for that date, bulk marking reports exactly
N−K newly inserted and K already existing, and afterwards the store holds
`prior + (N−K)` records for the date (not `max(N, prior)` in general: a prior
record of a non-matching student also counts), with no (student, date)
duplicate. -/
theorem bulk_attendance_report (db : DB) (d : String) (cf df : Option String)
    (f : Nat → Option AStatus)
    (hids : (db.students.map fun s => s.id).Nodup)
    (hpairs : (attendancePairs db.attendance).Nodup) :
    (bulk_attendance db d cf df f).2.1
        = (resolvedStudentIds db cf df).length
          - (resolvedStudentIds db cf df).countP
              (fun sid => hasAttendance db.attendance sid d) ∧
    (bulk_attendance db d cf df f).2.2
        = (resolvedStudentIds db cf df).countP
            (fun sid => hasAttendance db.attendance sid d) ∧
    ((bulk_attendance db d cf df f).1.attendance.countP fun r => r.date == d)
        = (db.attendance.countP fun r => r.date == d)
          + ((resolvedStudentIds db cf df).length
            - (resolvedStudentIds db cf df).countP
                (fun sid => hasAttendance db.attendance sid d)) ∧
    (attendancePairs (bulk_attendance db d cf df f).1.attendance).Nodup := by
  have hnodup : (resolvedStudentIds db cf df).Nodup := by
    have hsub : ((db.students.filter (matchesFilter cf df)).map fun s => s.id).Sublist
        (db.students.map fun s => s.id) :=
      List.Sublist.map _ (List.filter_sublist _)
    exact (hsub.nodup hids :)
  obtain ⟨h1, h2, h3, h4⟩ :=
    bulkAttendanceLoop_spec d f (resolvedStudentIds db cf df) db hnodup
  have hsplit := countP_not_add (fun sid => hasAttendance db.attendance sid d)
    (resolvedStudentIds db cf df)
  simp only [bulk_attendance]
  refine ⟨by omega, h2, by omega, h4 hpairs⟩

/-- Abbreviation for a concrete student row: usn reused for name and email. -/
def mkStudent (id : Nat) (usn cls dept : String) : Student :=
  ⟨id, usn, usn, usn, "", cls, dept, "", "", ""⟩

/-- Concrete store for the C2 witness: two students of class `A`, one of whom
already has a record for the target date. -/
def dbC2w : DB :=
  ⟨[mkStudent 1 "U1" "A" "D1", mkStudent 2 "U2" "A" "D1"],
   [⟨1, 1, "2024-01-01", AStatus.present⟩], [], [], [], [], 3, 2, 1, 1, 1, 1⟩

/-- Witness for C2 at a concrete input: N = 2 matching students, K = 1 prior
record, giving 1 new insert, 1 already-existing, and 2 records for the date. -/
theorem bulk_attendance_report_witness :
    ((dbC2w.students.map fun s => s.id).Nodup ∧
      (attendancePairs dbC2w.attendance).Nodup) ∧
    ((bulk_attendance dbC2w "2024-01-01" none none fun _ => none).2.1
        = (resolvedStudentIds dbC2w none none).length
          - (resolvedStudentIds dbC2w none none).countP
              (fun sid => hasAttendance dbC2w.attendance sid "2024-01-01") ∧
     (bulk_attendance dbC2w "2024-01-01" none none fun _ => none).2.2
        = (resolvedStudentIds dbC2w none none).countP
            (fun sid => hasAttendance dbC2w.attendance sid "2024-01-01") ∧
     ((bulk_attendance dbC2w "2024-01-01" none none fun _ => none).1.attendance.countP
        fun r => r.date == "2024-01-01")
        = (dbC2w.attendance.countP fun r => r.date == "2024-01-01")
          + ((resolvedStudentIds dbC2w none none).length
            - (resolvedStudentIds dbC2w none none).countP
                (fun sid => hasAttendance dbC2w.attendance sid "2024-01-01")) ∧
     (attendancePairs
        (bulk_attendance dbC2w "2024-01-01" none none fun _ => none).1.attendance).Nodup) :=
  ⟨⟨by decide, by decide⟩,
   bulk_attendance_report dbC2w "2024-01-01" none none (fun _ => none)
     (by decide) (by decide)⟩

/-- Concrete store refuting the `max(N, prior)` clause of C2: student 2 is in
class `B` and already has a record for the date; bulk marking class `A`
(N = 1, K = 0, prior = 1) leaves 2 records for the date, not max(1, 1) = 1. -/
def dbC2x : DB :=
  ⟨[mkStudent 1 "U1" "A" "D1", mkStudent 2 "U2" "B" "D1"],
   [⟨1, 2, "2024-01-01", AStatus.present⟩], [], [], [], [], 3, 2, 1, 1, 1, 1⟩

/-- C2 counterexample: after bulk marking with a class filter, the number of
records for the date differs from `max(N, prior count)` as the claim states
it, because a prior record of a non-matching student also counts. -/
theorem bulk_attendance_count_not_max :
    ((bulk_attendance dbC2x "2024-01-01" (some "A") none fun _ => none).1.attendance.countP
        fun r => r.date == "2024-01-01")
      ≠ max (resolvedStudentIds dbC2x (some "A") none).length
          (dbC2x.attendance.countP fun r => r.date == "2024-01-01") := by decide

/-! ### C1 — student deletion does not cascade at runtime -/

/-- Concrete store for C1: student 1 with one attendance row, one
task-assignment row and one mark row. -/
def dbC1 : DB :=
  ⟨[mkStudent 1 "U1" "A" "D1"],
   [⟨1, 1, "2024-01-01", AStatus.present⟩],
   [⟨1, "T1", "", "2024-02-01"⟩],
   [⟨1, 1, 1, TStatus.pending, none⟩],
   [⟨1, "Algebra", "BSc", 1, ""⟩],
   [⟨1, 1, 1, "Midterm", "10", "20", none, ""⟩],
   2, 2, 2, 2, 2, 2⟩

/-- C1 (code bug, evaluated at the failing input): `delete_student` removes
the `students` row but leaves every `attendance`, `student_tasks` and `marks`
row of the deleted student in the store — the schema's `ON DELETE CASCADE`
is never activated because `app.py` never issues `PRAGMA foreign_keys = ON` —
and the subsequent per-student report is a "Student not found" redirect
(`none`), not an empty sequence. -/
theorem delete_student_does_not_cascade :
    (delete_student dbC1 1).students = [] ∧
    (delete_student dbC1 1).attendance.filter (fun r => r.student_id == 1)
      = dbC1.attendance ∧
    (delete_student dbC1 1).student_tasks.filter (fun r => r.student_id == 1)
      = dbC1.student_tasks ∧
    (delete_student dbC1 1).marks.filter (fun m => m.student_id == 1)
      = dbC1.marks ∧
    student_report (delete_student dbC1 1) 1 = none := by decide

/-! ### Task-assignment reconciliation: helper lemmas -/

/-- The rows inserted by the assignment loop: one Pending row per student,
ids counting up from `n`. -/
def mkStudentTaskRows (tid : Nat) : Nat → List Nat → List StudentTask
  | _, [] => []
  | n, sid :: rest =>
    ⟨n, tid, sid, TStatus.pending, none⟩ :: mkStudentTaskRows tid (n + 1) rest

lemma mem_mkStudentTaskRows {tid : Nat} :
    ∀ {sids : List Nat} {n : Nat} {row : StudentTask},
      row ∈ mkStudentTaskRows tid n sids →
      row.task_id = tid ∧ row.student_id ∈ sids ∧
        row.status = TStatus.pending ∧ row.completed_date = none := by
  intro sids
  induction sids with
  | nil => intro n row h; simp [mkStudentTaskRows] at h
  | cons sid rest ih =>
    intro n row h
    rw [mkStudentTaskRows, List.mem_cons] at h
    rcases h with h | h
    · subst h
      exact ⟨rfl, by simp, rfl, rfl⟩
    · obtain ⟨h1, h2, h3, h4⟩ := ih h
      exact ⟨h1, List.mem_cons_of_mem _ h2, h3, h4⟩

lemma mkStudentTaskRows_exists {tid : Nat} :
    ∀ {sids : List Nat} {sid : Nat}, sid ∈ sids → ∀ n : Nat,
      ∃ row ∈ mkStudentTaskRows tid n sids, row.student_id = sid := by
  intro sids
  induction sids with
  | nil => intro sid h; cases h
  | cons a rest ih =>
    intro sid h n
    rcases List.mem_cons.mp h with rfl | h2
    · exact ⟨⟨n, tid, sid, TStatus.pending, none⟩, by simp [mkStudentTaskRows], rfl⟩
    · obtain ⟨row, hr, hs⟩ := ih h2 (n + 1)
      exact ⟨row, by rw [mkStudentTaskRows]; exact List.mem_cons_of_mem _ hr, hs⟩

lemma isAssigned_iff_mem_cur (db : DB) (tid sid : Nat) :
    isAssigned db tid sid = true ↔ sid ∈ currentlyAssignedIds db tid := by
  simp only [isAssigned, currentlyAssignedIds, List.any_eq_true, List.mem_map,
    List.mem_filter, Bool.and_eq_true, beq_iff_eq]
  constructor
  · rintro ⟨r, hr, h1, h2⟩
    exact ⟨r, ⟨hr, h1⟩, h2⟩
  · rintro ⟨r, ⟨hr, h1⟩, h2⟩
    exact ⟨r, hr, h1, h2⟩

lemma assignLoop_spec (tid : Nat) :
    ∀ (sids : List Nat) (db : DB), sids.Nodup →
      (∀ sid ∈ sids, isAssigned db tid sid = false) →
      assignLoop tid db sids
        = ({ db with
              student_tasks := db.student_tasks
                ++ mkStudentTaskRows tid db.next_student_task_id sids,
              next_student_task_id := db.next_student_task_id + sids.length },
           sids.length) := by
  intro sids
  induction sids with
  | nil =>
    intro db _ _
    simp [assignLoop, mkStudentTaskRows]
  | cons sid rest ih =>
    intro db h hfree
    rw [List.nodup_cons] at h
    have hsid : isAssigned db tid sid = false := hfree sid (by simp)
    set row : StudentTask :=
      ⟨db.next_student_task_id, tid, sid, TStatus.pending, none⟩ with hrow
    set db1 : DB := { db with student_tasks := db.student_tasks ++ [row],
                              next_student_task_id := db.next_student_task_id + 1 }
      with hdb1
    have hstep : insertStudentTask db tid sid = (db1, true) := by
      simp [insertStudentTask, hsid, hdb1, hrow]
    have hfree1 : ∀ s ∈ rest, isAssigned db1 tid s = false := by
      intro s hs
      have hne : (sid == s) = false := by
        simp only [beq_eq_false_iff_ne, ne_eq]
        rintro rfl
        exact h.1 hs
      have hcur := hfree s (List.mem_cons_of_mem _ hs)
      simp only [isAssigned] at hcur
      simp [isAssigned, hdb1, hrow, List.any_append, hne, hcur]
    simp only [assignLoop, hstep, eq_self_iff_true, if_true]
    rw [ih db1 h.2 hfree1]
    simp only [hdb1, mkStudentTaskRows, List.length_cons, Prod.mk.injEq]
    refine ⟨?_, trivial⟩
    congr 1
    · rw [List.append_assoc]
      rfl
    · omega

lemma unassignLoop_spec (tid : Nat) :
    ∀ (us : List Nat) (db : DB),
      unassignLoop tid db us
        = ({ db with
              student_tasks := db.student_tasks.filter fun r =>
                !(r.task_id == tid && us.contains r.student_id) },
           us.length) := by
  intro us
  induction us with
  | nil =>
    intro db
    simp [unassignLoop]
  | cons sid rest ih =>
    intro db
    simp only [unassignLoop]
    rw [ih]
    simp only [List.filter_filter, List.length_cons, Prod.mk.injEq]
    refine ⟨?_, trivial⟩
    have hbool : ∀ a b c : Bool, (!(a && c) && !(a && b)) = !(a && (b || c)) := by
      decide
    congr 1
    apply List.filter_congr
    intro r _
    rw [List.contains_cons]
    exact hbool (r.task_id == tid) (r.student_id == sid) (rest.contains r.student_id)

lemma isAssigned_eq_contains (db : DB) (tid sid : Nat) :
    isAssigned db tid sid = (currentlyAssignedIds db tid).contains sid := by
  rw [Bool.eq_iff_iff, isAssigned_iff_mem_cur]
  simp

lemma update_spec (db : DB) (tid : Nat) (selected : List Nat)
    (hsel : selected.Nodup) :
    (update_task_assignments db tid selected).1.student_tasks
      = (db.student_tasks.filter fun row =>
          !(row.task_id == tid && !(selected.contains row.student_id)))
        ++ mkStudentTaskRows tid db.next_student_task_id
            (selected.filter fun sid =>
              !((currentlyAssignedIds db tid).contains sid)) ∧
    (update_task_assignments db tid selected).2.1
      = (selected.filter fun sid =>
          !((currentlyAssignedIds db tid).contains sid)).length ∧
    (update_task_assignments db tid selected).2.2
      = ((currentlyAssignedIds db tid).filter fun sid =>
          !(selected.contains sid)).length := by
  set cur := currentlyAssignedIds db tid with hcur
  set ta := selected.filter (fun sid => !(cur.contains sid)) with hta
  set tu := cur.filter (fun sid => !(selected.contains sid)) with htu
  have hta_nodup : ta.Nodup := hsel.filter _
  have hta_free : ∀ sid ∈ ta, isAssigned db tid sid = false := by
    intro sid hs
    rw [hta, List.mem_filter] at hs
    have hnot : sid ∉ cur := by simpa using hs.2
    cases hia : isAssigned db tid sid
    · rfl
    · exact absurd (hcur ▸ (isAssigned_iff_mem_cur db tid sid).mp hia) hnot
  have h1 := assignLoop_spec tid ta db hta_nodup hta_free
  have h2 := unassignLoop_spec tid tu
    { db with
        student_tasks := db.student_tasks
          ++ mkStudentTaskRows tid db.next_student_task_id ta,
        next_student_task_id := db.next_student_task_id + ta.length }
  have hunfold : update_task_assignments db tid selected
      = ((unassignLoop tid (assignLoop tid db ta).1 tu).1,
         (assignLoop tid db ta).2,
         (unassignLoop tid (assignLoop tid db ta).1 tu).2) := rfl
  rw [hunfold, h1]
  simp only [h2]
  refine ⟨?_, trivial, trivial⟩
  simp only [List.filter_append]
  have hnew : (mkStudentTaskRows tid db.next_student_task_id ta).filter
        (fun r => !(r.task_id == tid && tu.contains r.student_id))
      = mkStudentTaskRows tid db.next_student_task_id ta := by
    rw [List.filter_eq_self]
    intro row hrow
    obtain ⟨-, hmem, -, -⟩ := mem_mkStudentTaskRows hrow
    rw [hta, List.mem_filter] at hmem
    have hnotu : row.student_id ∉ tu := by
      rw [htu]
      intro hm
      have := (List.mem_filter.mp hm).2
      simp only [Bool.not_eq_true'] at this
      rw [List.contains_eq_any_beq] at this
      have hsel' : selected.contains row.student_id = true := by
        simpa using hmem.1
      rw [List.contains_eq_any_beq] at hsel'
      exact absurd hsel' (by simp [this])
    have hc : tu.contains row.student_id = false := by
      simpa using hnotu
    simp only [hc, Bool.and_false, Bool.not_false]
  have hold : db.student_tasks.filter
        (fun r => !(r.task_id == tid && tu.contains r.student_id))
      = db.student_tasks.filter
        (fun row => !(row.task_id == tid && !(selected.contains row.student_id))) := by
    apply List.filter_congr
    intro r hr
    cases ht : r.task_id == tid
    · simp [ht]
    · have hia : isAssigned db tid r.student_id = true := by
        simp only [isAssigned, List.any_eq_true]
        exact ⟨r, hr, by simp [ht]⟩
      have hcur' : r.student_id ∈ cur :=
        hcur ▸ (isAssigned_iff_mem_cur db tid r.student_id).mp hia
      have hkey : tu.contains r.student_id = !(selected.contains r.student_id) := by
        cases hc : selected.contains r.student_id
        · have hm : r.student_id ∈ tu := by
            rw [htu, List.mem_filter]
            exact ⟨hcur', by simpa using hc⟩
          simp only [hc, Bool.not_false]
          simpa using hm
        · have hm : r.student_id ∉ tu := by
            rw [htu, List.mem_filter]
            rintro ⟨-, hpred⟩
            simp only [Bool.not_eq_true'] at hpred
            rw [hpred] at hc
            exact Bool.false_ne_true hc
          simp only [hc, Bool.not_true]
          simpa using hm
      simp only [ht, Bool.true_and]
      rw [hkey]
  rw [hnew, hold]

lemma isAssigned_update (db : DB) (tid : Nat) (selected : List Nat)
    (hsel : selected.Nodup) (sid : Nat) :
    isAssigned (update_task_assignments db tid selected).1 tid sid = true
      ↔ sid ∈ selected := by
  obtain ⟨h1, -, -⟩ := update_spec db tid selected hsel
  simp only [isAssigned]
  rw [h1]
  simp only [List.any_append, Bool.or_eq_true, List.any_eq_true,
    Bool.and_eq_true, beq_iff_eq]
  constructor
  · rintro (⟨r, hr, hrt, hrs⟩ | ⟨r, hr, hrt, hrs⟩)
    · obtain ⟨-, hpred⟩ := List.mem_filter.mp hr
      simp only [hrt, beq_self_eq_true, Bool.true_and, Bool.not_not] at hpred
      have : r.student_id ∈ selected := by simpa using hpred
      exact hrs ▸ this
    · obtain ⟨-, hmem, -, -⟩ := mem_mkStudentTaskRows hr
      exact hrs ▸ (List.mem_filter.mp hmem).1
  · intro hmem
    cases hia : isAssigned db tid sid
    · have hta : sid ∈ selected.filter
          (fun s => !((currentlyAssignedIds db tid).contains s)) := by
        rw [List.mem_filter]
        refine ⟨hmem, ?_⟩
        rw [← isAssigned_eq_contains, hia]
        rfl
      obtain ⟨row, hrow, hs⟩ := mkStudentTaskRows_exists hta db.next_student_task_id
      obtain ⟨hrt, -, -, -⟩ := mem_mkStudentTaskRows hrow
      exact Or.inr ⟨row, hrow, hrt, hs⟩
    · simp only [isAssigned] at hia
      obtain ⟨r, hr, hpr⟩ := List.any_eq_true.mp hia
      simp only [Bool.and_eq_true, beq_iff_eq] at hpr
      refine Or.inl ⟨r, ?_, hpr.1, hpr.2⟩
      rw [List.mem_filter]
      refine ⟨hr, ?_⟩
      have hc : selected.contains r.student_id = true := by
        rw [hpr.2]
        simpa using hmem
      simp only [hc, Bool.not_true, Bool.and_false, Bool.not_false]

/-! ### C3 — reconciliation inserts and deletes exactly the set differences -/

/-- C3: reconciliation inserts a Pending row for exactly the members of the
desired set not currently assigned (reporting that count), deletes the row of
exactly the currently-assigned students outside the desired set (reporting
that count), and afterwards the assigned set is exactly the desired set; every
row that was not already present is a Pending row for a newly desired
student. -/
theorem update_task_assignments_reconciles (db : DB) (tid : Nat)
    (selected : List Nat) (hsel : selected.Nodup)
    (hpairs : (studentTaskPairs db.student_tasks).Nodup) :
    (update_task_assignments db tid selected).2.1
      = selected.countP (fun sid => !(isAssigned db tid sid)) ∧
    (update_task_assignments db tid selected).2.2
      = (currentlyAssignedIds db tid).countP (fun sid => !(selected.contains sid)) ∧
    (∀ sid, isAssigned (update_task_assignments db tid selected).1 tid sid = true
      ↔ sid ∈ selected) ∧
    (∀ row ∈ (update_task_assignments db tid selected).1.student_tasks,
      row ∉ db.student_tasks →
      row.task_id = tid ∧ row.status = TStatus.pending ∧
        row.completed_date = none ∧ row.student_id ∈ selected ∧
        isAssigned db tid row.student_id = false) := by
  obtain ⟨h1, h2, h3⟩ := update_spec db tid selected hsel
  refine ⟨?_, ?_, fun sid => isAssigned_update db tid selected hsel sid, ?_⟩
  · rw [h2, List.countP_eq_length_filter]
    congr 1
    apply List.filter_congr
    intro x _
    rw [isAssigned_eq_contains]
  · rw [h3, List.countP_eq_length_filter]
  · intro row hrow hnot
    rw [h1, List.mem_append] at hrow
    rcases hrow with hk | hn
    · exact absurd (List.mem_filter.mp hk).1 hnot
    · obtain ⟨hrt, hmem, hst, hcd⟩ := mem_mkStudentTaskRows hn
      obtain ⟨hms, hnc⟩ := List.mem_filter.mp hmem
      refine ⟨hrt, hst, hcd, hms, ?_⟩
      rw [isAssigned_eq_contains]
      simpa using hnc

/-- Concrete store for the C3 witness: task 1 currently assigned to student 1;
the desired set is the current set plus the new student 2. -/
def dbC3 : DB :=
  ⟨[mkStudent 1 "U1" "A" "D1", mkStudent 2 "U2" "A" "D1"], [],
   [⟨1, "T1", "", "2024-02-01"⟩], [⟨1, 1, 1, TStatus.pending, none⟩],
   [], [], 3, 1, 2, 2, 1, 1⟩

/-- Witness for C3 at a concrete input (the claim's "in particular" case:
desired = currently-assigned plus one new student, so exactly that student is
assigned and nothing is unassigned). -/
theorem update_task_assignments_reconciles_witness :
    ([1, 2] : List Nat).Nodup ∧ (studentTaskPairs dbC3.student_tasks).Nodup ∧
    ((update_task_assignments dbC3 1 [1, 2]).2.1
        = ([1, 2] : List Nat).countP (fun sid => !(isAssigned dbC3 1 sid)) ∧
     (update_task_assignments dbC3 1 [1, 2]).2.2
        = (currentlyAssignedIds dbC3 1).countP
            (fun sid => !(([1, 2] : List Nat).contains sid)) ∧
     (∀ sid, isAssigned (update_task_assignments dbC3 1 [1, 2]).1 1 sid = true
        ↔ sid ∈ ([1, 2] : List Nat)) ∧
     (∀ row ∈ (update_task_assignments dbC3 1 [1, 2]).1.student_tasks,
        row ∉ dbC3.student_tasks →
        row.task_id = 1 ∧ row.status = TStatus.pending ∧
          row.completed_date = none ∧ row.student_id ∈ ([1, 2] : List Nat) ∧
          isAssigned dbC3 1 row.student_id = false)) :=
  ⟨by decide, by decide,
   update_task_assignments_reconciles dbC3 1 [1, 2] (by decide) (by decide)⟩

/-! ### C4 — reconciliation is idempotent -/

/-- C4: running reconciliation twice with the same desired set makes the
second run report zero assigned and zero unassigned and leave the store
exactly unchanged. -/
theorem update_task_assignments_idempotent (db : DB) (tid : Nat)
    (selected : List Nat) (hsel : selected.Nodup) :
    update_task_assignments (update_task_assignments db tid selected).1 tid selected
      = ((update_task_assignments db tid selected).1, 0, 0) := by
  have hmem : ∀ sid,
      sid ∈ currentlyAssignedIds (update_task_assignments db tid selected).1 tid
        ↔ sid ∈ selected := by
    intro sid
    rw [← isAssigned_iff_mem_cur]
    exact isAssigned_update db tid selected hsel sid
  have hta : (selected.filter fun sid =>
      !((currentlyAssignedIds (update_task_assignments db tid selected).1 tid).contains
          sid)) = [] := by
    rw [List.filter_eq_nil_iff]
    intro sid hs
    have hc : sid ∈ currentlyAssignedIds (update_task_assignments db tid selected).1 tid :=
      (hmem sid).mpr hs
    simpa using hc
  have htu : ((currentlyAssignedIds (update_task_assignments db tid selected).1
        tid).filter fun sid => !(selected.contains sid)) = [] := by
    rw [List.filter_eq_nil_iff]
    intro sid hs
    have hc : sid ∈ selected := (hmem sid).mp hs
    simpa using hc
  have hunfold : ∀ d : DB, update_task_assignments d tid selected
      = ((unassignLoop tid
            (assignLoop tid d (selected.filter fun sid =>
              !((currentlyAssignedIds d tid).contains sid))).1
            ((currentlyAssignedIds d tid).filter fun sid =>
              !(selected.contains sid))).1,
         (assignLoop tid d (selected.filter fun sid =>
              !((currentlyAssignedIds d tid).contains sid))).2,
         (unassignLoop tid
            (assignLoop tid d (selected.filter fun sid =>
              !((currentlyAssignedIds d tid).contains sid))).1
            ((currentlyAssignedIds d tid).filter fun sid =>
              !(selected.contains sid))).2) := fun _ => rfl
  rw [hunfold, hta, htu]
  simp [assignLoop, unassignLoop]

/-- Witness for C4 at a concrete input. -/
theorem update_task_assignments_idempotent_witness :
    ([1, 2] : List Nat).Nodup ∧
    update_task_assignments (update_task_assignments dbC3 1 [1, 2]).1 1 [1, 2]
      = ((update_task_assignments dbC3 1 [1, 2]).1, 0, 0) :=
  ⟨by decide, update_task_assignments_idempotent dbC3 1 [1, 2] (by decide)⟩

/-! ### C10 — reconciliation only touches the symmetric difference -/

/-- C10: every join row of a student in both the currently-assigned set and
the desired set (or belonging to another task) survives completely unchanged,
while every join row of task `tid` for a student outside the desired set is
deleted regardless of its status — Completed rows included. -/
theorem update_task_assignments_frame (db : DB) (tid : Nat)
    (selected : List Nat) (hsel : selected.Nodup) :
    (∀ row ∈ db.student_tasks,
      (row.task_id ≠ tid ∨ row.student_id ∈ selected) →
      row ∈ (update_task_assignments db tid selected).1.student_tasks) ∧
    (∀ row ∈ db.student_tasks, row.task_id = tid → row.student_id ∉ selected →
      row ∉ (update_task_assignments db tid selected).1.student_tasks) := by
  obtain ⟨h1, -, -⟩ := update_spec db tid selected hsel
  constructor
  · intro row hrow hcond
    rw [h1, List.mem_append]
    left
    rw [List.mem_filter]
    refine ⟨hrow, ?_⟩
    rcases hcond with h | h
    · have ht : (row.task_id == tid) = false := by simpa using h
      simp [ht]
    · have hc : selected.contains row.student_id = true := by simpa using h
      simp only [hc, Bool.not_true, Bool.and_false, Bool.not_false]
  · intro row hrow ht hs
    rw [h1, List.mem_append]
    rintro (hk | hn)
    · have hpred := (List.mem_filter.mp hk).2
      simp [ht] at hpred
      exact hs hpred
    · obtain ⟨-, hmem, -, -⟩ := mem_mkStudentTaskRows hn
      exact hs (List.mem_filter.mp hmem).1

/-- Concrete store for the C10 witness: task 1 has a Completed row for
student 1 and a Pending row for student 2. -/
def dbC10 : DB :=
  ⟨[mkStudent 1 "U1" "A" "D1", mkStudent 2 "U2" "A" "D1"], [],
   [⟨1, "T1", "", "2024-02-01"⟩],
   [⟨1, 1, 1, TStatus.completed, some "2024-03-01"⟩,
    ⟨2, 1, 2, TStatus.pending, none⟩],
   [], [], 3, 1, 2, 3, 1, 1⟩

/-- Witness for C10 at a concrete input: with desired set `{2}`, the kept row
of student 2 survives unchanged and the Completed row of student 1 is deleted,
discarding its completion record. -/
theorem update_task_assignments_frame_witness :
    ([2] : List Nat).Nodup ∧
    (⟨2, 1, 2, TStatus.pending, none⟩ : StudentTask)
      ∈ (update_task_assignments dbC10 1 [2]).1.student_tasks ∧
    (⟨1, 1, 1, TStatus.completed, some "2024-03-01"⟩ : StudentTask)
      ∉ (update_task_assignments dbC10 1 [2]).1.student_tasks :=
  ⟨by decide,
   (update_task_assignments_frame dbC10 1 [2] (by decide)).1
     ⟨2, 1, 2, TStatus.pending, none⟩ (by decide) (Or.inr (by decide)),
   (update_task_assignments_frame dbC10 1 [2] (by decide)).2
     ⟨1, 1, 1, TStatus.completed, some "2024-03-01"⟩ (by decide) rfl (by decide)⟩

/-! ### C6 — per-student attendance aggregate -/

lemma attendance_count_split (att : List AttendanceRecord) (sid : Nat) :
    (att.countP fun r => r.student_id == sid && r.status == AStatus.present)
      + (att.countP fun r => r.student_id == sid && r.status == AStatus.absent)
      = (att.filter fun r => r.student_id == sid).length := by
  induction att with
  | nil => simp
  | cons r rest ih =>
    cases hsid : (r.student_id == sid) <;> cases hst : r.status <;>
      simp [List.countP_cons, List.filter_cons, hsid, hst] <;> omega

/-- C6: for every student present in the store, the attendance aggregate of
`student_report` reports the student's total, present and absent day counts
from the attendance table, with total = present + absent, percentage 0 when
the total is 0, and percentage `round2(present / total * 100)` otherwise. -/
theorem student_report_percentage (db : DB) (sid : Nat)
    (h : (db.students.any fun s => s.id == sid) = true) :
    ∃ rep, student_report db sid = some rep ∧
      rep.total_days = (db.attendance.filter fun r => r.student_id == sid).length ∧
      rep.present_count = (db.attendance.countP fun r =>
        r.student_id == sid && r.status == AStatus.present) ∧
      rep.absent_count = (db.attendance.countP fun r =>
        r.student_id == sid && r.status == AStatus.absent) ∧
      rep.total_days = rep.present_count + rep.absent_count ∧
      (rep.total_days = 0 → rep.percent = 0) ∧
      (0 < rep.total_days →
        rep.percent
          = round2 ((rep.present_count : ℚ) / (rep.total_days : ℚ) * 100)) := by
  refine ⟨⟨(db.attendance.filter fun r => r.student_id == sid).length,
      db.attendance.countP fun r => r.student_id == sid && r.status == AStatus.present,
      db.attendance.countP fun r => r.student_id == sid && r.status == AStatus.absent,
      if (db.attendance.filter fun r => r.student_id == sid).length > 0 then
        round2 (((db.attendance.countP fun r =>
            r.student_id == sid && r.status == AStatus.present) : ℚ)
          / (((db.attendance.filter fun r => r.student_id == sid).length : Nat) : ℚ)
          * 100)
      else 0⟩, ?_, rfl, rfl, rfl, ?_, ?_, ?_⟩
  · simp [student_report, h]
  · exact (attendance_count_split db.attendance sid).symm
  · intro h0
    have h0' : (db.attendance.filter fun r => r.student_id == sid).length = 0 := h0
    have hns : ¬ (db.attendance.filter fun r => r.student_id == sid).length > 0 := by
      omega
    rw [if_neg hns]
  · intro h0
    rw [if_pos h0]

/-- Concrete store for the C6 witness: one student with 3 Present days and
1 Absent day. -/
def dbC6 : DB :=
  ⟨[mkStudent 1 "U1" "A" "D1"],
   [⟨1, 1, "2024-01-01", AStatus.present⟩, ⟨2, 1, "2024-01-02", AStatus.present⟩,
    ⟨3, 1, "2024-01-03", AStatus.present⟩, ⟨4, 1, "2024-01-04", AStatus.absent⟩],
   [], [], [], [], 2, 5, 1, 1, 1, 1⟩

lemma round2_seventyfive : round2 (75 : ℚ) = 75 := by
  rw [round2, show ((75 : ℚ) * 100) = ((7500 : ℤ) : ℚ) by norm_num, round_intCast]
  norm_num

/-- Witness for C6 at a concrete input: 4 total days, 3 present, 1 absent, and
percentage exactly 75. -/
theorem student_report_percentage_witness :
    (dbC6.students.any fun s => s.id == 1) = true ∧
    (∃ rep, student_report dbC6 1 = some rep ∧ rep.total_days = 4 ∧
      rep.present_count = 3 ∧ rep.absent_count = 1 ∧ rep.percent = 75) := by
  refine ⟨by decide, ?_⟩
  obtain ⟨rep, hrep, ht, hp, ha, -, -, hpos⟩ :=
    student_report_percentage dbC6 1 (by decide)
  have ht4 : rep.total_days = 4 := by rw [ht]; decide
  have hp3 : rep.present_count = 3 := by rw [hp]; decide
  have ha1 : rep.absent_count = 1 := by rw [ha]; decide
  refine ⟨rep, hrep, ht4, hp3, ha1, ?_⟩
  rw [hpos (by omega), hp3, ht4,
    show ((3 : ℕ) : ℚ) / ((4 : ℕ) : ℚ) * 100 = 75 by norm_num,
    round2_seventyfive]

/-! ### C7 — subject (name, course, semester) uniqueness -/

/-- C7: creating a subject whose (name, course, semester) triple is already
present fails as a duplicate and leaves the store unchanged; updating a
different subject to that triple is likewise rejected; creating the same name
and course under a semester whose triple is free succeeds. -/
theorem subject_uniqueness (db : DB) (name course : String) (sem sem' : Nat)
    (desc desc' : String) (id : Nat) (s : Subject)
    (hs : s ∈ db.subjects) (hname : s.name = (strip name))
    (hcourse : s.course = (strip course)) (hsem : s.semester = sem)
    (hid : s.id ≠ id)
    (hne : (strip name) ≠ "" ∧ (strip course) ≠ "")
    (hfree : subjectTripleExists db.subjects (strip name) (strip course) sem' = false) :
    add_subject db name course sem desc = (db, .duplicate) ∧
    edit_subject db id name course sem desc = (db, .duplicate) ∧
    add_subject db name course sem' desc'
      = ({ db with
            subjects := db.subjects ++
              [⟨db.next_subject_id, (strip name), (strip course), sem', (strip desc')⟩],
            next_subject_id := db.next_subject_id + 1 }, .ok) := by
  have h1 : ((strip name) == "") = false := by simpa using hne.1
  have h2 : ((strip course) == "") = false := by simpa using hne.2
  have hdup : subjectTripleExists db.subjects (strip name) (strip course) sem = true := by
    simp only [subjectTripleExists, List.any_eq_true]
    exact ⟨s, hs, by simp [hname, hcourse, hsem]⟩
  have hedit : (db.subjects.any fun t =>
      t.name == (strip name) && t.course == (strip course) && t.semester == sem
        && t.id != id) = true := by
    rw [List.any_eq_true]
    exact ⟨s, hs, by simp [hname, hcourse, hsem, hid]⟩
  refine ⟨?_, ?_, ?_⟩
  · simp [add_subject, h1, h2, hdup]
  · simp [edit_subject, h1, h2, hedit]
  · simp [add_subject, h1, h2, hfree]

/-- Concrete store for the C7 witness: one subject (Algebra, BSc, 1). -/
def dbC7 : DB :=
  ⟨[], [], [], [], [⟨1, "Algebra", "BSc", 1, ""⟩], [], 1, 1, 1, 1, 2, 1⟩

/-- Witness for C7 at a concrete input: (Algebra, BSc, 1) again is rejected
as a duplicate both on create and on update of subject 2, while
(Algebra, BSc, 2) succeeds. -/
theorem subject_uniqueness_witness :
    ((⟨1, "Algebra", "BSc", 1, ""⟩ : Subject) ∈ dbC7.subjects ∧
      (strip "Algebra") ≠ "" ∧ (strip "BSc") ≠ "" ∧
      subjectTripleExists dbC7.subjects (strip "Algebra") (strip "BSc") 2 = false) ∧
    (add_subject dbC7 "Algebra" "BSc" 1 "" = (dbC7, .duplicate) ∧
     edit_subject dbC7 2 "Algebra" "BSc" 1 "" = (dbC7, .duplicate) ∧
     add_subject dbC7 "Algebra" "BSc" 2 ""
       = ({ dbC7 with
              subjects := dbC7.subjects ++
                [⟨dbC7.next_subject_id, (strip "Algebra"), (strip "BSc"), 2, (strip "")⟩],
              next_subject_id := dbC7.next_subject_id + 1 }, .ok)) :=
  ⟨⟨by decide, by decide, by decide, by decide⟩,
   subject_uniqueness dbC7 "Algebra" "BSc" 1 2 "" "" 2 ⟨1, "Algebra", "BSc", 1, ""⟩
     (by decide) (by decide) (by decide) rfl (by decide)
     ⟨by decide, by decide⟩ (by decide)⟩

/-! ### C9 — student usn / email uniqueness -/

/-- C9: creating a student whose usn or email is already used fails as a
duplicate while the existing student stays readable and the store unchanged;
updating a different student id to that usn/email is likewise rejected. -/
theorem student_uniqueness (db : DB) (s0 : Student)
    (usn name email phone class_ department pn pp pe : String) (id' : Nat)
    (hs0 : s0 ∈ db.students)
    (hdup : (strip usn) = s0.usn ∨ (strip email) = s0.email)
    (hne : (strip usn) ≠ "" ∧ (strip name) ≠ "" ∧ (strip email) ≠ "" ∧
      (strip class_) ≠ "" ∧ (strip department) ≠ "")
    (hid : s0.id ≠ id') :
    add_student db usn name email phone class_ department pn pp pe
      = (db, .duplicate) ∧
    s0 ∈ (add_student db usn name email phone class_ department pn pp pe).1.students ∧
    edit_student db id' usn name email phone class_ department pn pp pe
      = (db, .duplicate) := by
  obtain ⟨hne1, hne2, hne3, hne4, hne5⟩ := hne
  have h1 : ((strip usn) == "") = false := by simpa using hne1
  have h2 : ((strip name) == "") = false := by simpa using hne2
  have h3 : ((strip email) == "") = false := by simpa using hne3
  have h4 : ((strip class_) == "") = false := by simpa using hne4
  have h5 : ((strip department) == "") = false := by simpa using hne5
  have hdupB : (db.students.any fun s =>
      s.usn == (strip usn) || s.email == (strip email)) = true := by
    rw [List.any_eq_true]
    refine ⟨s0, hs0, ?_⟩
    rcases hdup with h | h
    · simp [h]
    · simp [h]
  have heditB : (db.students.any fun s =>
      (s.usn == (strip usn) || s.email == (strip email)) && s.id != id') = true := by
    rw [List.any_eq_true]
    refine ⟨s0, hs0, ?_⟩
    rcases hdup with h | h
    · simp [h, hid]
    · simp [h, hid]
  have hadd : add_student db usn name email phone class_ department pn pp pe
      = (db, .duplicate) := by
    simp [add_student, h1, h2, h3, h4, h5, hdupB]
  refine ⟨hadd, ?_, ?_⟩
  · rw [hadd]
    exact hs0
  · simp [edit_student, h1, h2, h3, h4, h5, heditB]

/-- Concrete store for the C9 witness. -/
def dbC9 : DB :=
  ⟨[mkStudent 1 "U1" "A" "D1"], [], [], [], [], [], 2, 1, 1, 1, 1, 1⟩

/-- Witness for C9 at a concrete input: a second student with the same usn is
rejected on create and on update of student 2, and student 1 stays present. -/
theorem student_uniqueness_witness :
    ((mkStudent 1 "U1" "A" "D1") ∈ dbC9.students ∧
      ((strip "U1") = (mkStudent 1 "U1" "A" "D1").usn ∨
        (strip "E9") = (mkStudent 1 "U1" "A" "D1").email)) ∧
    (add_student dbC9 "U1" "N9" "E9" "" "A" "D1" "" "" ""
        = (dbC9, .duplicate) ∧
     (mkStudent 1 "U1" "A" "D1")
        ∈ (add_student dbC9 "U1" "N9" "E9" "" "A" "D1" "" "" "").1.students ∧
     edit_student dbC9 2 "U1" "N9" "E9" "" "A" "D1" "" "" ""
        = (dbC9, .duplicate)) :=
  ⟨⟨by decide, Or.inl (by decide)⟩,
   student_uniqueness dbC9 (mkStudent 1 "U1" "A" "D1") "U1" "N9" "E9" "" "A" "D1"
     "" "" "" 2 (by decide) (Or.inl (by decide))
     ⟨by decide, by decide, by decide, by decide, by decide⟩ (by decide)⟩

/-! ### C8 — bulk marks entry -/

lemma headD_eq_getD (l : List String) : l.headD "" = l.getD 0 "" := by
  cases l <;> simp

lemma tail_getD (l : List String) (i : Nat) :
    l.tail.getD i "" = l.getD (i + 1) "" := by
  cases l <;> simp

lemma getElem_zero_getD (l : List String) : (l[0]?).getD "" = l.headD "" := by
  cases l <;> simp

lemma bulkMarksLoop_spec (subj : Nat) (et : String) (ed : Option String)
    (rem : String) :
    ∀ (ids : List Nat) (mol mml : List String) (db : DB),
      (bulkMarksLoop subj et ed rem db ids mol mml).2
        = (List.range ids.length).countP
            (fun i => !(mol.getD i "" == "") && !(mml.getD i "" == "")) ∧
      (bulkMarksLoop subj et ed rem db ids mol mml).1.marks.length
        = db.marks.length + (bulkMarksLoop subj et ed rem db ids mol mml).2 ∧
      (∀ m ∈ (bulkMarksLoop subj et ed rem db ids mol mml).1.marks,
        m ∈ db.marks ∨ (m.subject_id = subj ∧ m.exam_type = et ∧
          m.marks_obtained ≠ "" ∧ m.max_marks ≠ "")) := by
  intro ids
  induction ids with
  | nil =>
    intro mol mml db
    refine ⟨by simp [bulkMarksLoop], by simp [bulkMarksLoop], ?_⟩
    intro m hm
    exact Or.inl hm
  | cons sid rest ih =>
    intro mol mml db
    have hshift : (List.range rest.length).countP
        ((fun i => !(mol.getD i "" == "") && !(mml.getD i "" == "")) ∘ Nat.succ)
        = (List.range rest.length).countP
            (fun i => !(mol.tail.getD i "" == "") && !(mml.tail.getD i "" == "")) := by
      apply List.countP_congr
      intro i _
      simp only [Function.comp_apply, Nat.succ_eq_add_one, tail_getD]
    cases hmo : (mol.headD "" == "") <;> cases hmm2 : (mml.headD "" == "")
    · -- both scores present: the row is inserted
      obtain ⟨ih1, ih2, ih3⟩ := ih mol.tail mml.tail
        { db with
            marks := db.marks ++ [⟨db.next_mark_id, sid, subj, et,
              mol.headD "", mml.headD "", ed, rem⟩],
            next_mark_id := db.next_mark_id + 1 }
      have hred : bulkMarksLoop subj et ed rem db (sid :: rest) mol mml
          = ((bulkMarksLoop subj et ed rem
                { db with
                    marks := db.marks ++ [⟨db.next_mark_id, sid, subj, et,
                      mol.headD "", mml.headD "", ed, rem⟩],
                    next_mark_id := db.next_mark_id + 1 } rest mol.tail mml.tail).1,
             (bulkMarksLoop subj et ed rem
                { db with
                    marks := db.marks ++ [⟨db.next_mark_id, sid, subj, et,
                      mol.headD "", mml.headD "", ed, rem⟩],
                    next_mark_id := db.next_mark_id + 1 } rest mol.tail mml.tail).2
               + 1) := by
        rw [bulkMarksLoop]
        simp only [hmo, hmm2, Bool.or_self, Bool.false_eq_true, if_false]
      refine ⟨?_, ?_, ?_⟩
      · rw [hred, List.length_cons, List.range_succ_eq_map, List.countP_cons,
          List.countP_map, hshift, ih1]
        have hmo' : ¬ mol.head?.getD "" = "" := by simpa using hmo
        have hmm2' : ¬ mml.head?.getD "" = "" := by simpa using hmm2
        simp [getElem_zero_getD, hmo', hmm2']
      · rw [hred, ih2]
        simp only [List.length_append, List.length_singleton]
        omega
      · rw [hred]
        intro m hm
        rcases ih3 m hm with h | h
        · rcases List.mem_append.mp h with h' | h'
          · exact Or.inl h'
          · right
            rw [List.mem_singleton] at h'
            subst h'
            exact ⟨rfl, rfl, by simpa using hmo, by simpa using hmm2⟩
        · exact Or.inr h
    · -- max_marks missing: the position is skipped
      obtain ⟨ih1, ih2, ih3⟩ := ih mol.tail mml.tail db
      have hred : bulkMarksLoop subj et ed rem db (sid :: rest) mol mml
          = bulkMarksLoop subj et ed rem db rest mol.tail mml.tail := by
        rw [bulkMarksLoop]
        simp only [hmo, hmm2, Bool.or_true, Bool.true_or, Bool.or_self,
          eq_self_iff_true, if_true]
      refine ⟨?_, ?_, ?_⟩
      · rw [hred, ih1, List.length_cons, List.range_succ_eq_map, List.countP_cons,
          List.countP_map, hshift]
        have hmm2' : mml.head?.getD "" = "" := by simpa using hmm2
        simp [getElem_zero_getD, hmm2']
      · rw [hred]
        exact ih2
      · rw [hred]
        exact ih3
    · -- marks_obtained missing: the position is skipped
      obtain ⟨ih1, ih2, ih3⟩ := ih mol.tail mml.tail db
      have hred : bulkMarksLoop subj et ed rem db (sid :: rest) mol mml
          = bulkMarksLoop subj et ed rem db rest mol.tail mml.tail := by
        rw [bulkMarksLoop]
        simp only [hmo, hmm2, Bool.or_true, Bool.true_or, Bool.or_self,
          eq_self_iff_true, if_true]
      refine ⟨?_, ?_, ?_⟩
      · rw [hred, ih1, List.length_cons, List.range_succ_eq_map, List.countP_cons,
          List.countP_map, hshift]
        have hmo' : mol.head?.getD "" = "" := by simpa using hmo
        simp [getElem_zero_getD, hmo']
      · rw [hred]
        exact ih2
      · rw [hred]
        exact ih3
    · -- both scores missing: the position is skipped
      obtain ⟨ih1, ih2, ih3⟩ := ih mol.tail mml.tail db
      have hred : bulkMarksLoop subj et ed rem db (sid :: rest) mol mml
          = bulkMarksLoop subj et ed rem db rest mol.tail mml.tail := by
        rw [bulkMarksLoop]
        simp only [hmo, hmm2, Bool.or_true, Bool.true_or, Bool.or_self,
          eq_self_iff_true, if_true]
      refine ⟨?_, ?_, ?_⟩
      · rw [hred, ih1, List.length_cons, List.range_succ_eq_map, List.countP_cons,
          List.countP_map, hshift]
        have hmm2' : mml.head?.getD "" = "" := by simpa using hmm2
        simp [getElem_zero_getD, hmm2']
      · rw [hred]
        exact ih2
      · rw [hred]
        exact ih3

/-- C8: with a non-empty exam type, bulk marks entry inserts exactly one mark
row per index position of the student-id list where both the marks_obtained
and max_marks entries exist and are non-empty (missing positions silently
skipped), the reported count equals the number of rows inserted, and every
inserted row carries the given subject, exam type and the non-empty scores. -/
theorem bulk_marks_inserts_per_position (db : DB) (subj : Nat)
    (exam_type : String) (exam_date : Option String) (remarks : String)
    (ids : List Nat) (mol mml : List String)
    (het : strip exam_type ≠ "") :
    (bulk_marks db subj exam_type exam_date remarks ids mol mml).2
      = (List.range ids.length).countP
          (fun i => !(mol.getD i "" == "") && !(mml.getD i "" == "")) ∧
    (bulk_marks db subj exam_type exam_date remarks ids mol mml).1.marks.length
      = db.marks.length
        + (bulk_marks db subj exam_type exam_date remarks ids mol mml).2 ∧
    (∀ m ∈ (bulk_marks db subj exam_type exam_date remarks ids mol mml).1.marks,
      m ∈ db.marks ∨ (m.subject_id = subj ∧ m.exam_type = strip exam_type ∧
        m.marks_obtained ≠ "" ∧ m.max_marks ≠ "")) := by
  have hguard : (strip exam_type == "") = false := by simpa using het
  have hunfold : bulk_marks db subj exam_type exam_date remarks ids mol mml
      = bulkMarksLoop subj (strip exam_type) exam_date (strip remarks) db
          ids mol mml := by
    rw [bulk_marks]
    simp [hguard]
  rw [hunfold]
  exact bulkMarksLoop_spec subj (strip exam_type) exam_date (strip remarks)
    ids mol mml db

/-- Witness for C8 at a concrete input with mismatched-length score lists:
of three student ids, only position 0 has both scores, so exactly one row is
inserted and the count reported is 1. -/
theorem bulk_marks_inserts_per_position_witness :
    strip "T" ≠ "" ∧
    ((bulk_marks dbEmpty 1 "T" none "" [1, 2, 3] ["10", "20"] ["15"]).2
        = (List.range ([1, 2, 3] : List Nat).length).countP
            (fun i => !((["10", "20"] : List String).getD i "" == "")
              && !((["15"] : List String).getD i "" == "")) ∧
     (bulk_marks dbEmpty 1 "T" none "" [1, 2, 3] ["10", "20"] ["15"]).1.marks.length
        = dbEmpty.marks.length
          + (bulk_marks dbEmpty 1 "T" none "" [1, 2, 3] ["10", "20"] ["15"]).2 ∧
     (∀ m ∈ (bulk_marks dbEmpty 1 "T" none "" [1, 2, 3] ["10", "20"] ["15"]).1.marks,
        m ∈ dbEmpty.marks ∨ (m.subject_id = 1 ∧ m.exam_type = strip "T" ∧
          m.marks_obtained ≠ "" ∧ m.max_marks ≠ ""))) ∧
    (bulk_marks dbEmpty 1 "T" none "" [1, 2, 3] ["10", "20"] ["15"]).2 = 1 :=
  ⟨by decide,
   bulk_marks_inserts_per_position dbEmpty 1 "T" none "" [1, 2, 3]
     ["10", "20"] ["15"] (by decide),
   by decide⟩

end AMS
